import Mathlib

/-!
Verification of the web-discovery-and-extraction pipeline in
`Demo/custom_web_tools.py` (class `CustomWebSearchTool`).

Python strings are sequences of code points; we model them as `List Char`
(`PyStr`).  Indexing, slicing (`[:n]`), `rfind`, `strip`, and regular-
expression substitution are modelled character-by-character, faithful to the
source.  External effects (HTTP fetches, the system clock, the three search
strategies, `datetime.fromisoformat`) are passed in as explicit parameters,
so every function here is a pure, executable translation of the source.
-/

namespace CustomWebTools

/-- Python strings as lists of code points. -/
abbrev PyStr := List Char

/-- Python regex `\s` / `str.strip()` whitespace (ASCII part: space, tab,
newline, carriage return, vertical tab, form feed). -/
def pyIsSpace (c : Char) : Bool :=
  c = ' ' || c = '\t' || c = '\n' || c = '\r' || c = '\x0b' || c = '\x0c'

/-- Python `str.strip()`: drop whitespace from both ends. -/
def pyStrip (l : PyStr) : PyStr :=
  ((l.dropWhile pyIsSpace).reverse.dropWhile pyIsSpace).reverse

/-- One pass of `re.sub(p+, rep, s)` for a character class `p`: every maximal
run of characters satisfying `p` is replaced by the single character `rep`.
The boolean flag records whether we are inside a run. -/
def collapseRuns (p : Char → Bool) (rep : Char) : Bool → PyStr → PyStr
  | _, [] => []
  | inRun, c :: cs =>
    if p c then
      if inRun then collapseRuns p rep true cs
      else rep :: collapseRuns p rep true cs
    else c :: collapseRuns p rep false cs

/-- `re.sub(r'\n+', '\n', s)`. -/
def sub_nl (l : PyStr) : PyStr := collapseRuns (fun c => c = '\n') '\n' false l

/-- `re.sub(r'\s+', ' ', s)`. -/
def sub_ws (l : PyStr) : PyStr := collapseRuns pyIsSpace ' ' false l

/-- Case-insensitive literal match at the head: returns the remainder after
the literal on success (regex `IGNORECASE`; ASCII case folding). -/
def matchLit : PyStr → PyStr → Option PyStr
  | [], l => some l
  | _ :: _, [] => none
  | a :: pa, c :: cs => if a.toLower = c.toLower then matchLit pa cs else none

/-- Lazy `.*?B`: scan forward for the earliest case-insensitive match of the
literal `b`, where the skipped characters must not be newlines (regex `.`
does not match `\n`).  Returns the remainder after `b`. -/
def findLit (b : PyStr) : PyStr → Option PyStr
  | [] => matchLit b []
  | c :: cs =>
    match matchLit b (c :: cs) with
    | some rest => some rest
    | none => if c = '\n' then none else findLit b cs

/-- A boilerplate pattern: a leading literal, optionally followed by
`.*?` and a second literal.  A trailing `.*?` in the source patterns is lazy
and therefore matches the empty string, so it is dropped. -/
abbrev Pat := PyStr × Option PyStr

/-- Match a pattern at the head of `l`; on success return the remainder. -/
def matchPat (pat : Pat) (l : PyStr) : Option PyStr :=
  match matchLit pat.1 l with
  | none => none
  | some rest =>
    match pat.2 with
    | none => some rest
    | some b => findLit b rest

/-- `re.sub(pat, '', s)`: delete every non-overlapping leftmost match,
scanning left to right.  Fueled so that the recursion is structural; the
fuel is the length of the list, which suffices because every pattern starts
with a non-empty literal and hence consumes at least one character. -/
def subAllF (pat : Pat) : Nat → PyStr → PyStr
  | 0, l => l
  | _ + 1, [] => []
  | fuel + 1, c :: cs =>
    match matchPat pat (c :: cs) with
    | some rest => subAllF pat fuel rest
    | none => c :: subAllF pat fuel cs

/-- `re.sub(pat, '', s, flags=re.IGNORECASE)`. -/
def subPattern (pat : Pat) (l : PyStr) : PyStr := subAllF pat l.length l

/-- The `patterns_to_remove` list of `_clean_content`, in source order.
Each trailing `.*?` is lazy and matches the empty string. -/
def boilerplate_patterns : List Pat :=
  [ ("Cookie Policy".toList, some "Accept".toList),
    ("Subscribe".toList, some "newsletter".toList),
    ("Follow us".toList, some "social".toList),
    ("Share this".toList, none),
    ("Advertisement".toList, none),
    ("Related:".toList, none),
    ("Also read:".toList, none),
    ("Sign up".toList, none),
    ("Read more:".toList, none),
    ("Continue reading".toList, none) ]

/-- Apply all boilerplate removals in order. -/
def removePatterns (l : PyStr) : PyStr :=
  boilerplate_patterns.foldl (fun acc pat => subPattern pat acc) l

/-- The cleaning applied by `_clean_content` before the length check:
collapse newline runs, collapse whitespace runs, strip boilerplate. -/
def preTrunc (l : PyStr) : PyStr := removePatterns (sub_ws (sub_nl l))

/-- Python `str.rfind(c)`: highest index of `c`, or `-1` when absent. -/
def pyRfindAux (c : Char) : PyStr → Option Nat
  | [] => none
  | x :: xs =>
    match pyRfindAux c xs with
    | some i => some (i + 1)
    | none => if x = c then some 0 else none

/-- Python `str.rfind(c)` with the `-1` sentinel. -/
def pyRfind (c : Char) (l : PyStr) : Int :=
  match pyRfindAux c l with
  | some i => (i : Int)
  | none => -1

/-- `max(truncated.rfind('.'), truncated.rfind('!'), truncated.rfind('?'))`. -/
def lastSentenceIdx (l : PyStr) : Int :=
  max (pyRfind '.' l) (max (pyRfind '!' l) (pyRfind '?' l))

/-- The length-bounding step of `_clean_content`: if the cleaned text
exceeds 3000 characters, cut at 3000, then cut at the last sentence
terminator when its index exceeds 2500, else append an ellipsis. -/
def truncateAtSentence (c : PyStr) : PyStr :=
  if 3000 < c.length then
    let truncated := c.take 3000
    let last_sentence := lastSentenceIdx truncated
    if 2500 < last_sentence then truncated.take (last_sentence.toNat + 1)
    else truncated ++ "...".toList
  else c

/-- `_clean_content` (the content sanitizer). -/
def _clean_content (content : PyStr) : PyStr :=
  if content = [] then []
  else pyStrip (truncateAtSentence (preTrunc content))

/-! ## URL parsing and validation

`_is_valid_url` calls `urllib.parse.urlparse`.  We model the parts of
`urlparse` the validator reads (scheme and netloc), following CPython
`Lib/urllib/parse.py`: unsafe bytes (tab, CR, LF) are removed; a scheme is
split off when the text before the first `:` is a non-empty run of scheme
characters starting with a letter; a netloc follows `//` and extends to the
first `/`, `?` or `#`; unbalanced square brackets in the netloc raise
`ValueError`, modelled as `none`.  (The stricter bracketed-host content
validation of newer CPython is elided; no claim depends on it.) -/

/-- Result of `urlparse` restricted to the fields the validator reads.
`rest` is the unsplit remainder (path, query, fragment). -/
structure ParsedUrl where
  scheme : PyStr
  netloc : PyStr
  rest : PyStr
deriving DecidableEq, Repr

/-- Characters removed up front by `urlsplit` (`_UNSAFE_URL_BYTES_TO_REMOVE`). -/
def removeUnsafe (l : PyStr) : PyStr :=
  l.filter (fun c => !(c = '\t' || c = '\r' || c = '\n'))

/-- `scheme_chars` of `urllib.parse`. -/
def schemeChar (c : Char) : Bool :=
  c.isAlpha || c.isDigit || c = '+' || c = '-' || c = '.'

/-- `url.find(':')`: index of the first colon. -/
def firstColon : PyStr → Option Nat
  | [] => none
  | c :: cs => if c = ':' then some 0 else (firstColon cs).map (fun i => i + 1)

/-- Split off the scheme, as in `urlsplit`: lowercased when valid, else
empty with the input untouched. -/
def splitScheme (l : PyStr) : PyStr × PyStr :=
  match firstColon l with
  | some i =>
    if 0 < i && (match l.head? with | some c => c.isAlpha | none => false)
        && (l.take i).all schemeChar
    then ((l.take i).map Char.toLower, l.drop (i + 1))
    else ([], l)
  | none => ([], l)

/-- Character that ends a netloc. -/
def netlocStop (c : Char) : Bool := c = '/' || c = '?' || c = '#'

/-- Split off the netloc after a leading `//`, as in `_splitnetloc`. -/
def splitNetloc (l : PyStr) : PyStr × PyStr :=
  match l with
  | '/' :: '/' :: rest =>
      (rest.takeWhile (fun c => !netlocStop c), rest.dropWhile (fun c => !netlocStop c))
  | _ => ([], l)

/-- `urllib.parse.urlparse`, restricted to scheme/netloc extraction.
`none` models the `ValueError` raised on unbalanced brackets. -/
def urlparse (url : String) : Option ParsedUrl :=
  let l := removeUnsafe url.toList
  let sr := splitScheme l
  let nr := splitNetloc sr.2
  if (nr.1.contains '[' && !nr.1.contains ']')
      || (nr.1.contains ']' && !nr.1.contains '[') then none
  else some ⟨sr.1, nr.1, nr.2⟩

/-- Python `needle in hay` on strings: `needle` occurs as a contiguous
substring of `hay`. -/
def containsStr (needle : PyStr) : PyStr → Bool
  | [] => needle.isPrefixOf []
  | c :: cs => needle.isPrefixOf (c :: cs) || containsStr needle cs

/-- The `excluded_domains` list of `_is_valid_url`, in source order. -/
def excluded_domains : List String :=
  [ "facebook.com", "twitter.com", "instagram.com", "linkedin.com",
    "youtube.com", "tiktok.com", "pinterest.com", "reddit.com",
    "google.com", "bing.com", "yahoo.com", "duckduckgo.com",
    "amazon.com", "ebay.com" ]

/-- `_is_valid_url`: scheme must be http/https with a non-empty netloc, the
lowercased netloc must not contain an excluded domain as a substring, and a
parse failure (`except Exception`) yields `False`. -/
def _is_valid_url (url : String) : Bool :=
  match urlparse url with
  | none => false
  | some p =>
    if !((p.scheme = "http".toList || p.scheme = "https".toList) && !(p.netloc = [])) then
      false
    else
      let domain := p.netloc.map Char.toLower
      if excluded_domains.any (fun e => containsStr e.toList domain) then false
      else true

/-! ## Parsed-page model

The extractors run over a BeautifulSoup document.  We model an element by
the projections the source reads: its tag name, its `content` / `datetime`
attributes, `get_text()`, and — for the body extractor — the text produced
by `get_text(separator='\n', strip=True)` after the nested unwanted
elements (sidebars, ads, …) have been decomposed.  A page maps each CSS
selector to an optional element (`select_one`) and lists its `<p>` elements
(`find_all('p')`); the page is taken after `_scrape_content` has removed
script/style/nav/… elements, a step no claim depends on. -/

structure Element where
  name : String
  content_attr : Option PyStr
  datetime_attr : Option PyStr
  getText : PyStr
  textSepClean : PyStr
deriving Repr

structure Soup where
  select_one : String → Option Element
  find_all_p : List Element

/-- Selector cascade of `_extract_title`, in source order. -/
def title_selectors : List String :=
  [ "h1.entry-title", "h1.post-title", "h1.article-title",
    "h1[class*=\"title\"]", "h1", "[property=\"og:title\"]",
    "[name=\"twitter:title\"]", "title", ".headline", ".page-title" ]

/-- The raw title read from a matched element: `content` attribute for
`meta` elements, else `get_text()`, stripped. -/
def titleRaw (e : Element) : PyStr :=
  if e.name = "meta" then pyStrip (e.content_attr.getD [])
  else pyStrip e.getText

/-- Title cleaning: collapse whitespace, keep the part before the first
`|`, then before the first `-`, and strip. -/
def titleClean (t : PyStr) : PyStr :=
  pyStrip (((sub_ws t).takeWhile (fun c => c ≠ '|')).takeWhile (fun c => c ≠ '-'))

/-- The selector cascade of `_extract_title`: first element whose raw title
is non-empty with more than 5 characters wins; returns its cleaned title. -/
def pickTitle (soup : Soup) : List String → Option PyStr
  | [] => none
  | sel :: rest =>
    match soup.select_one sel with
    | none => pickTitle soup rest
    | some e =>
      let t := titleRaw e
      if t ≠ [] ∧ 5 < t.length then some (titleClean t)
      else pickTitle soup rest

/-- `_extract_title`. -/
def _extract_title (soup : Soup) : PyStr :=
  match pickTitle soup title_selectors with
  | some t => t.take 150
  | none => "Untitled Article".toList

/-- Selector cascade of `_extract_content`, in source order. -/
def content_selectors : List String :=
  [ "article .entry-content", "article .post-content",
    "article .article-content", "article .content", "article",
    "[role=\"main\"] .content", "[role=\"main\"]", "main article",
    "main .content", "main", ".entry-content", ".post-content",
    ".article-content", ".article-body", ".story-content", ".story-body",
    "#content .content", "#content", ".main-content" ]

/-- The selector cascade of `_extract_content`: first container whose
(cleaned-descendant, separator-joined) text exceeds 300 characters wins,
and its text is sanitized. -/
def pickContent (soup : Soup) : List String → Option PyStr
  | [] => none
  | sel :: rest =>
    match soup.select_one sel with
    | none => pickContent soup rest
    | some e =>
      let c := e.textSepClean
      if 300 < c.length then some (_clean_content c)
      else pickContent soup rest

/-- `_extract_content`, including the paragraph fallback and the literal
failure marker. -/
def _extract_content (soup : Soup) : PyStr :=
  match pickContent soup content_selectors with
  | some c => c
  | none =>
    if soup.find_all_p.isEmpty then "Content extraction failed".toList
    else
      let texts := (soup.find_all_p.map (fun p => pyStrip p.getText)).filter
        (fun t => 20 < t.length)
      let joined := List.intercalate "\n".toList texts
      if 300 < joined.length then _clean_content joined
      else "Content extraction failed".toList

/-- External dependencies of the pipeline: the two clock readings used by
the source (`datetime.now().strftime("%Y-%m-%d")` and
`...strftime("%Y-%m-%d %H:%M:%S")`) and `datetime.fromisoformat` composed
with `strftime("%Y-%m-%d")`, which returns `none` on a parse failure. -/
structure Env where
  today : PyStr
  now : PyStr
  iso : PyStr → Option PyStr

/-- Selector cascade of `_extract_date`, in source order. -/
def date_selectors : List String :=
  [ "time[datetime]", "[property=\"article:published_time\"]",
    "[property=\"article:modified_time\"]", "[name=\"twitter:data1\"]",
    ".published", ".date", ".post-date", ".article-date", ".entry-date",
    ".timestamp" ]

/-- The raw date string read from a matched element: `content` attribute for
`meta`, `datetime` attribute (falling back to `get_text()`) for `time`,
else stripped `get_text()`. -/
def dateRaw (e : Element) : PyStr :=
  if e.name = "meta" then e.content_attr.getD []
  else if e.name = "time" then
    let d := e.datetime_attr.getD []
    if d = [] then e.getText else d
  else pyStrip e.getText

/-- `date_str.replace('Z', '+00:00')`. -/
def replaceZ : PyStr → PyStr
  | [] => []
  | c :: cs => if c = 'Z' then "+00:00".toList ++ replaceZ cs else c :: replaceZ cs

/-- `re.match(r'\d{4}-\d{2}-\d{2}', s)` (ASCII digits). -/
def isDateStart : PyStr → Bool
  | y1 :: y2 :: y3 :: y4 :: '-' :: m1 :: m2 :: '-' :: d1 :: d2 :: _ =>
    y1.isDigit && y2.isDigit && y3.isDigit && y4.isDigit
      && m1.isDigit && m2.isDigit && d1.isDigit && d2.isDigit
  | _ => false

/-- The selector cascade of `_extract_date`: ISO parse when the text
contains `T`, else the first 10 characters when they look like a date,
else the raw text capped at 50 characters. -/
def pickDate (env : Env) (soup : Soup) : List String → Option PyStr
  | [] => none
  | sel :: rest =>
    match soup.select_one sel with
    | none => pickDate env soup rest
    | some e =>
      let d := dateRaw e
      if d = [] then pickDate env soup rest
      else if d.contains 'T' then
        match env.iso (replaceZ d) with
        | some out => some out
        | none => some (if isDateStart d then d.take 10 else d.take 50)
      else some (if isDateStart d then d.take 10 else d.take 50)

/-- `_extract_date`; defaults to the current date. -/
def _extract_date (env : Env) (soup : Soup) : PyStr :=
  (pickDate env soup date_selectors).getD env.today

/-! ## Fetch-and-extract stage -/

/-- `len(content.split())`: number of maximal non-whitespace runs. -/
def wordCountAux : Bool → PyStr → Nat
  | _, [] => 0
  | inWord, c :: cs =>
    if pyIsSpace c then wordCountAux false cs
    else (if inWord then 0 else 1) + wordCountAux true cs

/-- `len(content.split()) if content else 0`. -/
def wordCount (l : PyStr) : Nat := wordCountAux false l

/-- The per-URL record built by `_scrape_content`.  The source returns
dicts with differing key sets; absent keys are modelled by `[]` / `none` /
`0`, matching what `.get` would yield downstream. -/
structure ScrapedDoc where
  title : PyStr
  content : PyStr
  url : String
  published_date : PyStr
  success : Bool
  error : Option PyStr
  word_count : Nat
deriving Repr

/-- `_scrape_content`.  The fetch (session GET, `raise_for_status`, parse)
is an input: `Except.error e` models a raised exception with message `e`,
caught by the outer `try`. -/
def _scrape_content (env : Env) (fetched : Except PyStr Soup) (url : String) :
    ScrapedDoc :=
  match fetched with
  | Except.error e => ⟨[], [], url, [], false, some e, 0⟩
  | Except.ok soup =>
    let title := _extract_title soup
    let content := _extract_content soup
    let published_date := _extract_date env soup
    if content.length < 100 then
      ⟨[], [], url, [], false, some "Content too short".toList, 0⟩
    else
      ⟨title, content, url, published_date, true, none, wordCount content⟩

/-! ## Dispatcher -/

/-- The validate-and-deduplicate merge at the end of `_search_urls`:
first occurrence wins, and a URL is kept only when `_is_valid_url` accepts
it.  `seen` is the running membership set. -/
def dedupValidAux (seen : List String) : List String → List String
  | [] => []
  | u :: us =>
    if !seen.contains u && _is_valid_url u then
      u :: dedupValidAux (u :: seen) us
    else dedupValidAux seen us

/-- The merge with an initially empty `seen` set. -/
def dedupValid (urls : List String) : List String := dedupValidAux [] urls

/-- `_search_urls`.  The three discovery strategies are inputs, already
applied to the query: each maps its remaining-count argument to the raw URL
list it contributes (an internal strategy failure, caught by `try`, is the
empty contribution).  After the strategies run, the accumulated list is
validated, deduplicated, and truncated to `limit`. -/
def _search_urls (ddg alt news : Nat → List String) (limit : Nat) :
    List String :=
  let urls := ddg limit
  let urls := if urls.length < limit then urls ++ alt (limit - urls.length) else urls
  let urls := if urls.length < limit then urls ++ news (limit - urls.length) else urls
  (dedupValid urls).take limit

/-! ## Formatter and top-level search -/

/-- `sum(r.get('word_count', 0) for r in results)`. -/
def totalWords (rs : List ScrapedDoc) : Nat :=
  (rs.map (fun r => r.word_count)).foldr (fun a b => a + b) 0

/-- One per-document block of `_format_results`. -/
def docBlock (idx : Nat) (d : ScrapedDoc) : PyStr :=
  "### Article ".toList ++ (toString idx).toList ++ ": ".toList ++ d.title
    ++ "\n\n** Source Information:**\n- **URL:** ".toList ++ d.url.toList
    ++ "\n- **Published:** ".toList ++ d.published_date
    ++ "  \n- **Word Count:** ".toList ++ (toString d.word_count).toList
    ++ " words\n\n** Full Content:**\n".toList ++ d.content
    ++ "\n\n**Source Link:** [".toList ++ d.title ++ "](".toList
    ++ d.url.toList ++ ")\n\n".toList ++ List.replicate 80 '─'
    ++ "\n\n".toList

/-- The document blocks, enumerated from 1. -/
def docBlocksFrom (i : Nat) : List ScrapedDoc → PyStr
  | [] => []
  | d :: ds => docBlock i d ++ docBlocksFrom (i + 1) ds

/-- The summary header of `_format_results`. -/
def reportHeader (now : PyStr) (results : List ScrapedDoc) (query : String) :
    PyStr :=
  "# 🔍 LIVE WEB SEARCH RESULTS: ".toList ++ query.toList
    ++ "\n\n## 📊 SEARCH SUMMARY\n- **Query:** ".toList ++ query.toList
    ++ "\n- **Results Found:** ".toList ++ (toString results.length).toList
    ++ " articles\n- **Search Date:** ".toList ++ now
    ++ "\n- **Total Content:** ".toList ++ (toString (totalWords results)).toList
    ++ " words\n\n## 📰 ARTICLE ANALYSIS\n\n".toList

/-- The research-insights footer of `_format_results`. -/
def reportFooter (now : PyStr) (results : List ScrapedDoc) (query : String) :
    PyStr :=
  "##RESEARCH INSIGHTS\n\n**Key Findings:** The web search successfully gathered ".toList
    ++ (toString results.length).toList
    ++ " current articles about \"".toList ++ query.toList
    ++ "\" with comprehensive content totaling ".toList
    ++ (toString (totalWords results)).toList
    ++ " words.\n\n**Source Quality:** All sources have been validated and contain substantial content relevant to the search query.\n\n**Recency:** Search focused on recent content to ensure current information.\n\n**Next Steps:** Use this comprehensive research data to create an engaging, fact-based newsletter with proper attribution to these ".toList
    ++ (toString results.length).toList
    ++ " sources.\n\n---\n*This research data was generated through live web search on ".toList
    ++ now ++ "*\n".toList

/-- `_format_results`. -/
def _format_results (now : PyStr) (results : List ScrapedDoc) (query : String) :
    PyStr :=
  if results.isEmpty then
    "No results found for query: ".toList ++ query.toList
  else
    reportHeader now results query ++ docBlocksFrom 1 results
      ++ reportFooter now results query

/-- The EmptyResult message returned when no URLs were found. -/
def noResultsMsg (query : String) : PyStr :=
  "No search results found for query: ".toList ++ query.toList
    ++ ". Please try a different search term.".toList

/-- The message returned when no document survived the fetch loop. -/
def noContentMsg (query : String) : PyStr :=
  "No content could be extracted from search results for: ".toList
    ++ query.toList

/-- The successful documents gathered by the fetch loop of
`custom_web_search`: at most `limit` URLs are fetched, in order, and only
documents with `success` set are kept. -/
def searchDocs (env : Env) (fetch : String → Except PyStr Soup)
    (urls : List String) (limit : Nat) : List ScrapedDoc :=
  ((urls.take limit).map (fun u => _scrape_content env (fetch u) u)).filter
    (fun d => d.success)

/-- `custom_web_search`, with the discovery strategies, the fetcher and the
clock passed in as explicit inputs. -/
def custom_web_search (env : Env) (fetch : String → Except PyStr Soup)
    (ddg alt news : Nat → List String) (query : String) (limit : Nat) :
    PyStr :=
  let urls := _search_urls ddg alt news limit
  if urls = [] then noResultsMsg query
  else
    let results := searchDocs env fetch urls limit
    if results.isEmpty then noContentMsg query
    else _format_results env.now results query

/-! ## Reference model and concrete inputs

`searchUrlsSpecModel` follows the specification text for the dispatcher
word for word, for comparison with `_search_urls` (the translation of the
source): after each strategy the running validated/deduplicated set is
rebuilt and its size is compared against the limit, and each later strategy
receives `limit - current_count` for that set size. -/

def searchUrlsSpecModel (ddg alt news : Nat → List String) (limit : Nat) :
    List String :=
  let s := dedupValid (ddg limit)
  let s := if s.length < limit then dedupValid (s ++ alt (limit - s.length)) else s
  let s := if s.length < limit then dedupValid (s ++ news (limit - s.length)) else s
  s.take limit

/-- A fixed clock/ISO environment for concrete runs. -/
def env0 : Env := ⟨"2025-01-01".toList, "2025-01-01 00:00:00".toList, fun _ => none⟩

/-- A page on which no selector matches and that has no paragraphs. -/
def emptySoup : Soup := ⟨fun _ => none, []⟩

/-- A body whose sanitized form has exactly 99 characters: the boilerplate
pattern `Cookie Policy.*?Accept` swallows everything after the first 99. -/
def content301 : PyStr :=
  List.replicate 99 'x' ++ "Cookie Policy".toList ++ List.replicate 183 'z'
    ++ "Accept".toList

/-- A page whose first content selector yields `content301`. -/
def soup99 : Soup :=
  ⟨fun sel => if sel = "article .entry-content"
      then some ⟨"div", none, none, [], content301⟩ else none, []⟩

/-- A page whose first title selector yields a 200-character heading. -/
def soupT : Soup :=
  ⟨fun sel => if sel = "h1.entry-title"
      then some ⟨"h1", none, none, List.replicate 200 'T', []⟩ else none, []⟩

/-- 3001 characters with the only sentence terminator at index 2500:
inside the last 500 characters of the 3000-character cut, but not beyond
index 2500, so the code appends an ellipsis instead of cutting. -/
def exC3a : PyStr := List.replicate 2500 'x' ++ '.' :: List.replicate 500 'y'

/-- 3500 whitespace characters: longer than 3000, but collapsed to nothing
by the cleaning passes. -/
def exC3b : PyStr := List.replicate 3500 ' '

/-- 3001 characters with the only sentence terminator at index 2600:
exercises the cut-at-terminator branch. -/
def exW : PyStr := List.replicate 2600 'x' ++ '.' :: List.replicate 400 'y'

/-- Two valid article URLs. -/
def url1 : String := "https://example.com/news/a"

def url2 : String := "https://example.org/news/b"

/-- A strategy returning the same valid URL twice. -/
def ddgDup : Nat → List String := fun _ => [url1, url1]

/-- A strategy returning one valid URL. -/
def altOne : Nat → List String := fun _ => [url2]

/-- A strategy returning nothing. -/
def noneStrat : Nat → List String := fun _ => []

/-- A successful scraped document. -/
def doc1 : ScrapedDoc := ⟨"T".toList, "c".toList, "u", "d".toList, true, none, 1⟩

/-! ## Properties of the validate-and-deduplicate merge -/

theorem mem_dedupValidAux (l : List String) :
    ∀ (seen : List String) (u : String), u ∈ dedupValidAux seen l →
      _is_valid_url u = true ∧ u ∉ seen := by
  induction l with
  | nil => intro seen u h; simp [dedupValidAux] at h
  | cons v vs ih =>
    intro seen u h
    by_cases hc : (!seen.contains v && _is_valid_url v) = true
    · rw [dedupValidAux, if_pos hc] at h
      rcases List.mem_cons.1 h with rfl | hmem
      · have hc2 := hc
        simp only [Bool.and_eq_true, Bool.not_eq_true'] at hc2
        refine ⟨hc2.2, fun hin => ?_⟩
        have : seen.contains u = true := by simpa using hin
        rw [this] at hc2
        exact absurd hc2.1 (by decide)
      · obtain ⟨hval, hnotin⟩ := ih (v :: seen) u hmem
        exact ⟨hval, fun hin => hnotin (List.mem_cons_of_mem _ hin)⟩
    · rw [dedupValidAux, if_neg hc] at h
      exact ih seen u h

theorem nodup_dedupValidAux (l : List String) :
    ∀ seen : List String, (dedupValidAux seen l).Nodup := by
  induction l with
  | nil => intro seen; simp [dedupValidAux]
  | cons v vs ih =>
    intro seen
    by_cases hc : (!seen.contains v && _is_valid_url v) = true
    · rw [dedupValidAux, if_pos hc]
      refine List.nodup_cons.2 ⟨fun hmem => ?_, ih _⟩
      exact (mem_dedupValidAux vs _ v hmem).2 (List.mem_cons_self v seen)
    · rw [dedupValidAux, if_neg hc]; exact ih seen

theorem dedupValidAux_of_clean (l : List String) :
    ∀ seen : List String, (∀ u ∈ l, _is_valid_url u = true) → l.Nodup →
      (∀ u ∈ l, u ∉ seen) → dedupValidAux seen l = l := by
  induction l with
  | nil => intro seen _ _ _; rfl
  | cons v vs ih =>
    intro seen hval hnd hseen
    have h1 : seen.contains v = false := by
      simpa using hseen v (List.mem_cons_self v vs)
    have hc : (!seen.contains v && _is_valid_url v) = true := by
      rw [h1, hval v (List.mem_cons_self v vs)]; rfl
    rw [dedupValidAux, if_pos hc]
    congr 1
    refine ih (v :: seen) (fun u hu => hval u (List.mem_cons_of_mem _ hu))
      (List.nodup_cons.1 hnd).2 (fun u hu hin => ?_)
    rcases List.mem_cons.1 hin with rfl | hin2
    · exact (List.nodup_cons.1 hnd).1 hu
    · exact hseen u (List.mem_cons_of_mem _ hu) hin2

end CustomWebTools

namespace CustomWebTools

/-- C1: for every query/limit pair (the query being absorbed into the
strategy inputs), the list of successful documents assembled by the search
operation — the documents the final report renders one block for — has
length at most `limit`: the dispatcher truncates the candidate list to
`limit`, the fetch loop iterates over at most `limit` URLs, and filtering
only shrinks the list. -/
theorem report_docs_le_limit (env : Env) (fetch : String → Except PyStr Soup)
    (ddg alt news : Nat → List String) (limit : Nat) :
    (searchDocs env fetch (_search_urls ddg alt news limit) limit).length ≤ limit := by
  unfold searchDocs
  calc (((_search_urls ddg alt news limit).take limit).map
          (fun u => _scrape_content env (fetch u) u) |>.filter (fun d => d.success)).length
      ≤ (((_search_urls ddg alt news limit).take limit).map
          (fun u => _scrape_content env (fetch u) u)).length := List.length_filter_le _ _
    _ = ((_search_urls ddg alt news limit).take limit).length := List.length_map _ _
    _ ≤ limit := List.length_take_le _ _

/-- C4 (amended): the size the dispatcher compares against `limit` after
each strategy is the length of the raw accumulated candidate list — before
validation and deduplication — and each later strategy receives
`limit - (raw accumulated length)`.  Stated as: (1) when the first strategy
alone fills the raw quota the other strategies are never consulted; (2)
when the first two do, the third is never consulted; (3) the result depends
on the second strategy only through its value at `limit - len(raw₁)`;
(4) the result depends on the third strategy only through its value at
`limit - len(raw₁ ++ raw₂)`. -/
theorem dispatcher_compares_raw_counts :
    (∀ (ddg alt alt2 news news2 : Nat → List String) (limit : Nat),
        limit ≤ (ddg limit).length →
        _search_urls ddg alt news limit = _search_urls ddg alt2 news2 limit)
  ∧ (∀ (ddg alt news news2 : Nat → List String) (limit : Nat),
        (ddg limit).length < limit →
        limit ≤ (ddg limit ++ alt (limit - (ddg limit).length)).length →
        _search_urls ddg alt news limit = _search_urls ddg alt news2 limit)
  ∧ (∀ (ddg alt alt2 news : Nat → List String) (limit : Nat),
        (ddg limit).length < limit →
        alt (limit - (ddg limit).length) = alt2 (limit - (ddg limit).length) →
        _search_urls ddg alt news limit = _search_urls ddg alt2 news limit)
  ∧ (∀ (ddg alt news news2 : Nat → List String) (limit : Nat),
        (ddg limit).length < limit →
        (ddg limit ++ alt (limit - (ddg limit).length)).length < limit →
        news (limit - (ddg limit ++ alt (limit - (ddg limit).length)).length)
          = news2 (limit - (ddg limit ++ alt (limit - (ddg limit).length)).length) →
        _search_urls ddg alt news limit = _search_urls ddg alt news2 limit) := by
  refine ⟨?_, ?_, ?_, ?_⟩
  · intro ddg alt alt2 news news2 limit h
    simp [_search_urls, Nat.not_lt.mpr h]
  · intro ddg alt news news2 limit h1 h2
    have h2n : ¬ ((ddg limit).length + (alt (limit - (ddg limit).length)).length
        < limit) := by
      simpa using Nat.not_lt.mpr h2
    simp [_search_urls, h1, h2n]
  · intro ddg alt alt2 news limit h1 h2
    simp [_search_urls, h1, h2]
  · intro ddg alt news news2 limit h1 h2 h3
    have h2p : (ddg limit).length + (alt (limit - (ddg limit).length)).length
        < limit := by simpa using h2
    have h3n := h3
    simp only [List.length_append] at h3n
    simp [_search_urls, h1, h2p, h3n]

/-- C4 witness: concrete instances of parts (1) and (2). -/
theorem dispatcher_compares_raw_counts_witness :
    _search_urls ddgDup altOne noneStrat 2 = _search_urls ddgDup noneStrat altOne 2
  ∧ _search_urls noneStrat altOne noneStrat 1 = _search_urls noneStrat altOne ddgDup 1 :=
  ⟨dispatcher_compares_raw_counts.1 ddgDup altOne noneStrat noneStrat altOne 2 (by decide),
   dispatcher_compares_raw_counts.2.1 noneStrat altOne noneStrat ddgDup 1 (by decide)
     (by decide)⟩

/-- C4 counterexample: with `limit = 2` and a first strategy returning one
valid URL twice, the code skips the remaining strategies — the raw list
already has 2 entries — and returns a single URL, while the claimed
behaviour (comparing the validated/deduplicated set size of 1) would run
the second strategy and return two URLs. -/
theorem dispatcher_claim_cex :
    _search_urls ddgDup altOne noneStrat 2 = [url1]
  ∧ searchUrlsSpecModel ddgDup altOne noneStrat 2 = [url1, url2]
  ∧ ¬ _search_urls ddgDup altOne noneStrat 2
      = searchUrlsSpecModel ddgDup altOne noneStrat 2 :=
  ⟨by decide, by decide, by decide⟩

/-- C6: whenever the title cascade selects an element whose cleaned title
text is longer than 150 characters, the extracted title has length exactly
150. -/
theorem title_truncated_to_150 (soup : Soup) (t : PyStr)
    (h : pickTitle soup title_selectors = some t) (hlen : 150 < t.length) :
    (_extract_title soup).length = 150 := by
  unfold _extract_title
  rw [h]
  simp [List.length_take]
  omega

set_option maxRecDepth 20000 in
/-- C6 witness: a page with a 200-character heading yields a title of
exactly 150 characters. -/
theorem title_truncated_to_150_witness : (_extract_title soupT).length = 150 :=
  title_truncated_to_150 soupT (List.replicate 200 'T') (by decide) (by decide)

/-- C7: the validator-plus-deduplication merge is idempotent — on the
merge itself, and on the merge followed by the `limit` truncation that ends
`_search_urls`. -/
theorem dedup_merge_idempotent :
    (∀ urls : List String, dedupValid (dedupValid urls) = dedupValid urls)
  ∧ (∀ (urls : List String) (limit : Nat),
      (dedupValid ((dedupValid urls).take limit)).take limit
        = (dedupValid urls).take limit) := by
  have main : ∀ urls : List String, dedupValid (dedupValid urls) = dedupValid urls := by
    intro urls
    exact dedupValidAux_of_clean _ _
      (fun u hu => (mem_dedupValidAux _ _ u hu).1)
      (nodup_dedupValidAux _ _) (fun u _ => List.not_mem_nil u)
  refine ⟨main, fun urls limit => ?_⟩
  have hsub : List.Sublist ((dedupValid urls).take limit) (dedupValid urls) :=
    List.take_sublist _ _
  have h1 : dedupValid ((dedupValid urls).take limit) = (dedupValid urls).take limit :=
    dedupValidAux_of_clean _ _
      (fun u hu => (mem_dedupValidAux _ _ u (hsub.mem hu)).1)
      ((nodup_dedupValidAux _ _).sublist hsub) (fun u _ => List.not_mem_nil u)
  rw [h1, List.take_take, Nat.min_self]

/-- C10: the URL validator is total — it yields a boolean for every input
string, and any parse failure (the modelled `ValueError` of `urlparse`)
yields `false` through the `except` handler. -/
theorem validator_total (url : String) :
    (urlparse url = none → _is_valid_url url = false)
  ∧ (_is_valid_url url = true ∨ _is_valid_url url = false) := by
  constructor
  · intro h; simp [_is_valid_url, h]
  · cases h : _is_valid_url url
    · exact Or.inr rfl
    · exact Or.inl rfl

/-- C10 witness: `http://[` (an unbalanced bracket, on which Python's
`urlparse` raises `ValueError`) is rejected. -/
theorem validator_total_witness :
    urlparse "http://[" = none ∧ _is_valid_url "http://[" = false :=
  ⟨by decide, (validator_total "http://[").1 (by decide)⟩

/-- C2 (amended): the success flag of a scraped document is set iff the
stored body has at least 100 characters; an extracted body of exactly 99
characters yields an unsuccessful document whose failure reason is the
source's literal string `Content too short` (capital C), and an extracted
body of 100 or more characters yields success. -/
theorem scrape_success_iff_min_content (env : Env) (fetched : Except PyStr Soup)
    (url : String) :
    ((_scrape_content env fetched url).success = true
      ↔ 100 ≤ (_scrape_content env fetched url).content.length)
  ∧ (∀ soup, fetched = Except.ok soup → (_extract_content soup).length = 99 →
      (_scrape_content env fetched url).success = false
        ∧ (_scrape_content env fetched url).error = some "Content too short".toList)
  ∧ (∀ soup, fetched = Except.ok soup → 100 ≤ (_extract_content soup).length →
      (_scrape_content env fetched url).success = true) := by
  refine ⟨?_, ?_, ?_⟩
  · cases fetched with
    | error e => simp [_scrape_content]
    | ok soup =>
      by_cases h : (_extract_content soup).length < 100
      · simp only [_scrape_content]
        rw [if_pos h]
        simp
      · simp only [_scrape_content]
        rw [if_neg h]
        simpa using Nat.le_of_not_lt h
  · intro soup heq h99
    subst heq
    have h : (_extract_content soup).length < 100 := by omega
    simp only [_scrape_content]
    rw [if_pos h]
    exact ⟨rfl, rfl⟩
  · intro soup heq h100
    subst heq
    have h : ¬ (_extract_content soup).length < 100 := by omega
    simp only [_scrape_content]
    rw [if_neg h]

set_option maxRecDepth 20000 in
/-- C2 witness: a page whose sanitized body has exactly 99 characters
yields an unsuccessful document with the content-too-short reason. -/
theorem scrape_success_iff_min_content_witness :
    (_extract_content soup99).length = 99
  ∧ (_scrape_content env0 (Except.ok soup99) "u").success = false
  ∧ (_scrape_content env0 (Except.ok soup99) "u").error
      = some "Content too short".toList := by
  refine ⟨by decide, ?_, ?_⟩
  · exact ((scrape_success_iff_min_content env0 (Except.ok soup99) "u").2.1 soup99
      rfl (by decide)).1
  · exact ((scrape_success_iff_min_content env0 (Except.ok soup99) "u").2.1 soup99
      rfl (by decide)).2

set_option maxRecDepth 20000 in
/-- C2 counterexample: the failure reason recorded by the code is the
string `Content too short`, which is not the claimed lowercase string
`content too short`. -/
theorem scrape_reason_capitalization_cex :
    (_extract_content soup99).length = 99
  ∧ (_scrape_content env0 (Except.ok soup99) "u").error
      = some "Content too short".toList
  ∧ ¬ (_scrape_content env0 (Except.ok soup99) "u").error
      = some "content too short".toList :=
  ⟨by decide, by decide, by decide⟩

/-- C5 (amended): the extractors are total, and on a page where no
selector matches and no paragraph exists every field degrades to its
default — `Untitled Article` for the title, the literal failure marker
`Content extraction failed` (not the empty string) for the body, and the
current date for the published date. -/
theorem extractor_defaults (env : Env) (soup : Soup)
    (hsel : ∀ sel, soup.select_one sel = none) (hp : soup.find_all_p = []) :
    _extract_title soup = "Untitled Article".toList
  ∧ _extract_content soup = "Content extraction failed".toList
  ∧ _extract_date env soup = env.today := by
  refine ⟨?_, ?_, ?_⟩
  · simp [_extract_title, title_selectors, pickTitle, hsel]
  · simp [_extract_content, content_selectors, pickContent, hsel, hp]
  · simp [_extract_date, date_selectors, pickDate, hsel]

/-- C5 witness: the defaults on a concrete empty page. -/
theorem extractor_defaults_witness :
    _extract_title emptySoup = "Untitled Article".toList
  ∧ _extract_content emptySoup = "Content extraction failed".toList
  ∧ _extract_date env0 emptySoup = env0.today :=
  extractor_defaults env0 emptySoup (fun _ => rfl) rfl

/-- C5 counterexample: the body default is the literal marker string, not
the empty string claimed by the specification. -/
theorem extractor_body_default_cex :
    _extract_content emptySoup = "Content extraction failed".toList
  ∧ ¬ _extract_content emptySoup = [] :=
  ⟨by decide, by decide⟩

/-- The populated report always starts with the markdown header marker. -/
theorem format_results_head (now : PyStr) (docs : List ScrapedDoc) (q : String)
    (h : docs.isEmpty = false) : (_format_results now docs q).head? = some '#' := by
  unfold _format_results
  simp only [h, Bool.false_eq_true, if_false]
  rfl

/-- C9: when all three discovery strategies return empty lists the search
returns the explicit no-results message (not an error), and that message is
never equal to a populated report (so callers can distinguish the two). -/
theorem empty_strategies_no_results :
    (∀ (env : Env) (fetch : String → Except PyStr Soup)
        (ddg alt news : Nat → List String) (query : String) (limit : Nat),
        (∀ n, ddg n = []) → (∀ n, alt n = []) → (∀ n, news n = []) →
        custom_web_search env fetch ddg alt news query limit = noResultsMsg query)
  ∧ (∀ (now : PyStr) (docs : List ScrapedDoc) (q q2 : String), docs ≠ [] →
        ¬ _format_results now docs q2 = noResultsMsg q) := by
  constructor
  · intro env fetch ddg alt news query limit hd ha hn
    simp [custom_web_search, _search_urls, hd, ha, hn, dedupValid, dedupValidAux]
  · intro now docs q q2 h heq
    have h0 : docs.isEmpty = false := by
      cases docs with
      | nil => exact absurd rfl h
      | cons d ds => rfl
    have h1 := format_results_head now docs q2 h0
    rw [heq] at h1
    have h2 : (noResultsMsg q).head? = some 'N' := rfl
    rw [h2] at h1
    exact absurd (Option.some.inj h1) (by decide)

/-- C9 witness: the no-results message on a concrete empty run, and its
difference from a concrete populated report. -/
theorem empty_strategies_no_results_witness :
    custom_web_search env0 (fun _ => Except.error "e".toList)
        noneStrat noneStrat noneStrat "q" 5 = noResultsMsg "q"
  ∧ ¬ _format_results "n".toList [doc1] "x" = noResultsMsg "q" :=
  ⟨empty_strategies_no_results.1 env0 _ noneStrat noneStrat noneStrat "q" 5
      (fun _ => rfl) (fun _ => rfl) (fun _ => rfl),
   empty_strategies_no_results.2 "n".toList [doc1] "q" "x" (List.cons_ne_nil _ _)⟩

/-- `takeWhile` runs through a prefix on which the predicate holds. -/
theorem takeWhile_append_all {p : Char → Bool} (l₁ l₂ : List Char)
    (h : ∀ c ∈ l₁, p c = true) :
    (l₁ ++ l₂).takeWhile p = l₁ ++ l₂.takeWhile p := by
  induction l₁ with
  | nil => simp
  | cons a t ih =>
    rw [List.cons_append, List.takeWhile_cons, h a (List.mem_cons_self a t)]
    simp only [List.cons_append]
    rw [ih (fun c hc => h c (List.mem_cons_of_mem _ hc))]
    simp

/-- `firstColon` over a colon-free prefix. -/
theorem firstColon_append (l₁ : List Char) (h : ∀ c ∈ l₁, c ≠ ':') (l₂ : List Char) :
    firstColon (l₁ ++ ':' :: l₂) = some l₁.length := by
  induction l₁ with
  | nil => simp [firstColon]
  | cons a t ih =>
    rw [List.cons_append, firstColon]
    rw [if_neg (by simpa using h a (List.mem_cons_self a t))]
    rw [ih (fun c hc => h c (List.mem_cons_of_mem _ hc))]
    rfl

/-- `removeUnsafe` distributes over append. -/
theorem removeUnsafe_append (l₁ l₂ : PyStr) :
    removeUnsafe (l₁ ++ l₂) = removeUnsafe l₁ ++ removeUnsafe l₂ := by
  simp [removeUnsafe]

/-- The netloc produced by a parse: either the parse fails, or the netloc
is the takeWhile slice computed by `splitNetloc`. -/
theorem urlparse_netloc (url : String) :
    urlparse url = none ∨ ∃ p, urlparse url = some p
      ∧ p.netloc = (splitNetloc (splitScheme (removeUnsafe url.toList)).2).1 := by
  simp only [urlparse]
  split
  · exact Or.inl rfl
  · exact Or.inr ⟨_, rfl, rfl⟩

/-- C8: every URL built from an http/https scheme, a host whose lowercased
form contains an excluded domain as a substring, and an arbitrary
path/query suffix, is rejected by the validator. -/
theorem validator_rejects_excluded (sch host suffix e : String)
    (hsch : sch = "http" ∨ sch = "https")
    (he : e ∈ excluded_domains)
    (hhost : ∀ c ∈ host.toList,
        c ≠ '/' ∧ c ≠ '?' ∧ c ≠ '#' ∧ c ≠ '\t' ∧ c ≠ '\r' ∧ c ≠ '\n')
    (hsub : containsStr e.toList (host.toList.map Char.toLower) = true)
    (hsuf : suffix.toList = []
      ∨ ∃ c cs, suffix.toList = c :: cs ∧ (c = '/' ∨ c = '?' ∨ c = '#')) :
    _is_valid_url (sch ++ "://" ++ host ++ suffix) = false := by
  have hall : ∀ c ∈ host.toList, (!netlocStop c) = true := by
    intro c hc
    obtain ⟨h1, h2, h3, _, _, _⟩ := hhost c hc
    simp [netlocStop, h1, h2, h3]
  have hfhost : removeUnsafe host.toList = host.toList := by
    refine List.filter_eq_self.mpr (fun c hc => ?_)
    obtain ⟨_, _, _, h4, h5, h6⟩ := hhost c hc
    simp [h4, h5, h6]
  have htwsuf : (removeUnsafe suffix.toList).takeWhile (fun c => !netlocStop c) = [] := by
    rcases hsuf with hnil | ⟨c, cs, hcons, hc⟩
    · rw [hnil]; rfl
    · rw [hcons]
      rcases hc with rfl | rfl | rfl <;>
        simp [removeUnsafe, List.filter_cons, List.takeWhile_cons, netlocStop]
  have key : ∀ schemeStr : String, schemeStr = "http" ∨ schemeStr = "https" →
      (splitNetloc (splitScheme (removeUnsafe
        (schemeStr ++ "://" ++ host ++ suffix).toList)).2).1 = host.toList := by
    intro schemeStr hs
    rcases hs with rfl | rfl
    · have h0 : ("http" ++ "://" ++ host ++ suffix).toList
          = "http".toList ++ ("://".toList ++ (host.toList ++ suffix.toList)) := by
        simp [String.toList]
      rw [h0, removeUnsafe_append, removeUnsafe_append, removeUnsafe_append]
      rw [show removeUnsafe "http".toList = "http".toList from by decide]
      rw [show removeUnsafe "://".toList = "://".toList from by decide]
      rw [hfhost]
      have hss : splitScheme ("http".toList ++ ("://".toList
            ++ (host.toList ++ removeUnsafe suffix.toList)))
          = ("http".toList, '/' :: '/' :: (host.toList ++ removeUnsafe suffix.toList)) := by
        have hfc : firstColon ("http".toList ++ ("://".toList
              ++ (host.toList ++ removeUnsafe suffix.toList)))
            = some 4 := by
          have := firstColon_append "http".toList (by decide)
            ('/' :: '/' :: (host.toList ++ removeUnsafe suffix.toList))
          simpa using this
        simp only [splitScheme, hfc]
        rfl
      rw [hss]
      show (host.toList ++ removeUnsafe suffix.toList).takeWhile
        (fun c => !netlocStop c) = host.toList
      rw [takeWhile_append_all host.toList _ hall, htwsuf]
      simp
    · have h0 : ("https" ++ "://" ++ host ++ suffix).toList
          = "https".toList ++ ("://".toList ++ (host.toList ++ suffix.toList)) := by
        simp [String.toList]
      rw [h0, removeUnsafe_append, removeUnsafe_append, removeUnsafe_append]
      rw [show removeUnsafe "https".toList = "https".toList from by decide]
      rw [show removeUnsafe "://".toList = "://".toList from by decide]
      rw [hfhost]
      have hss : splitScheme ("https".toList ++ ("://".toList
            ++ (host.toList ++ removeUnsafe suffix.toList)))
          = ("https".toList, '/' :: '/' :: (host.toList ++ removeUnsafe suffix.toList)) := by
        have hfc : firstColon ("https".toList ++ ("://".toList
              ++ (host.toList ++ removeUnsafe suffix.toList)))
            = some 5 := by
          have := firstColon_append "https".toList (by decide)
            ('/' :: '/' :: (host.toList ++ removeUnsafe suffix.toList))
          simpa using this
        simp only [splitScheme, hfc]
        rfl
      rw [hss]
      show (host.toList ++ removeUnsafe suffix.toList).takeWhile
        (fun c => !netlocStop c) = host.toList
      rw [takeWhile_append_all host.toList _ hall, htwsuf]
      simp
  rcases urlparse_netloc (sch ++ "://" ++ host ++ suffix) with hnone | ⟨p, hp, hpn⟩
  · simp [_is_valid_url, hnone]
  · have hN : p.netloc = host.toList := by rw [hpn]; exact key sch hsch
    simp only [_is_valid_url, hp]
    split
    · rfl
    · have hany : excluded_domains.any
          (fun x => containsStr x.toList (p.netloc.map Char.toLower)) = true :=
        List.any_eq_true.mpr ⟨e, he, by rw [hN]; exact hsub⟩
      rw [if_pos hany]

/-- C8 witness: a Facebook URL with a path/query suffix is rejected. -/
theorem validator_rejects_excluded_witness :
    _is_valid_url ("https" ++ "://" ++ "m.facebook.com" ++ "/story/x?y=1") = false :=
  validator_rejects_excluded "https" "m.facebook.com" "/story/x?y=1" "facebook.com"
    (Or.inr rfl) (by decide) (by decide) (by decide)
    (Or.inr ⟨'/', "story/x?y=1".toList, by decide, Or.inl rfl⟩)

/-! ## Sanitizer lemmas -/

theorem pyStrip_length_le (l : PyStr) : (pyStrip l).length ≤ l.length := by
  unfold pyStrip
  calc (((l.dropWhile pyIsSpace).reverse.dropWhile pyIsSpace).reverse).length
      = ((l.dropWhile pyIsSpace).reverse.dropWhile pyIsSpace).length :=
        List.length_reverse _
    _ ≤ ((l.dropWhile pyIsSpace).reverse).length :=
        (List.dropWhile_sublist _).length_le
    _ = (l.dropWhile pyIsSpace).length := List.length_reverse _
    _ ≤ l.length := (List.dropWhile_sublist _).length_le

theorem pyRfindAux_some (c : Char) (l : PyStr) :
    ∀ i, pyRfindAux c l = some i → l[i]? = some c := by
  induction l with
  | nil => intro i h; simp [pyRfindAux] at h
  | cons x xs ih =>
    intro i h
    rw [pyRfindAux] at h
    cases hx : pyRfindAux c xs with
    | some j =>
      rw [hx] at h
      cases h
      simpa using ih j hx
    | none =>
      rw [hx] at h
      by_cases hxc : x = c
      · rw [if_pos hxc] at h; cases h; simp [hxc]
      · rw [if_neg hxc] at h; cases h

theorem pyRfindAux_lt (c : Char) (l : PyStr) (i : Nat)
    (h : pyRfindAux c l = some i) : i < l.length :=
  (List.getElem?_eq_some_iff.1 (pyRfindAux_some c l i h)).1

theorem pyRfind_lt (c : Char) (l : PyStr) : pyRfind c l < (l.length : Int) := by
  cases hx : pyRfindAux c l with
  | none =>
    have he : pyRfind c l = -1 := by rw [pyRfind, hx]
    rw [he]; omega
  | some i =>
    have he : pyRfind c l = (i : Int) := by rw [pyRfind, hx]
    have := pyRfindAux_lt c l i hx
    rw [he]; omega

theorem pyRfind_nonneg_get (c : Char) (l : PyStr) (h : 0 ≤ pyRfind c l) :
    l[(pyRfind c l).toNat]? = some c := by
  cases hx : pyRfindAux c l with
  | none =>
    have he : pyRfind c l = -1 := by rw [pyRfind, hx]
    rw [he] at h; omega
  | some i =>
    have he : pyRfind c l = (i : Int) := by rw [pyRfind, hx]
    rw [he]
    simpa using pyRfindAux_some c l i hx

theorem lastSentenceIdx_lt (l : PyStr) : lastSentenceIdx l < (l.length : Int) := by
  unfold lastSentenceIdx
  exact max_lt (pyRfind_lt '.' l) (max_lt (pyRfind_lt '!' l) (pyRfind_lt '?' l))

theorem lastSentenceIdx_term (l : PyStr) (h : 0 ≤ lastSentenceIdx l) :
    ∃ t, (t = '.' ∨ t = '!' ∨ t = '?') ∧ l[(lastSentenceIdx l).toNat]? = some t := by
  rcases max_choice (pyRfind '.' l) (max (pyRfind '!' l) (pyRfind '?' l)) with h1 | h1
  · have he : lastSentenceIdx l = pyRfind '.' l := h1
    exact ⟨'.', Or.inl rfl, by
      rw [he]; exact pyRfind_nonneg_get '.' l (by rw [← he]; exact h)⟩
  · rcases max_choice (pyRfind '!' l) (pyRfind '?' l) with h2 | h2
    · have he : lastSentenceIdx l = pyRfind '!' l := by
        show max _ _ = _; rw [h1]; exact h2
      exact ⟨'!', Or.inr (Or.inl rfl), by
        rw [he]; exact pyRfind_nonneg_get '!' l (by rw [← he]; exact h)⟩
    · have he : lastSentenceIdx l = pyRfind '?' l := by
        show max _ _ = _; rw [h1]; exact h2
      exact ⟨'?', Or.inr (Or.inr rfl), by
        rw [he]; exact pyRfind_nonneg_get '?' l (by rw [← he]; exact h)⟩

theorem preTrunc_nil : preTrunc [] = [] := by decide

theorem clean_big_cut (s : PyStr) (h0 : 3000 < (preTrunc s).length)
    (h1 : 2500 < lastSentenceIdx ((preTrunc s).take 3000)) :
    _clean_content s = pyStrip (((preTrunc s).take 3000).take
      ((lastSentenceIdx ((preTrunc s).take 3000)).toNat + 1)) := by
  have hs : ¬ s = [] := by
    intro h; rw [h, preTrunc_nil] at h0; simp at h0
  unfold _clean_content
  rw [if_neg hs]
  simp only [truncateAtSentence]
  rw [if_pos h0, if_pos h1]

theorem clean_big_ellipsis (s : PyStr) (h0 : 3000 < (preTrunc s).length)
    (h2 : lastSentenceIdx ((preTrunc s).take 3000) ≤ 2500) :
    _clean_content s = pyStrip ((preTrunc s).take 3000 ++ "...".toList) := by
  have hs : ¬ s = [] := by
    intro h; rw [h, preTrunc_nil] at h0; simp at h0
  unfold _clean_content
  rw [if_neg hs]
  simp only [truncateAtSentence]
  rw [if_pos h0, if_neg (by omega : ¬ 2500 < lastSentenceIdx ((preTrunc s).take 3000))]

theorem clean_small (s : PyStr) (hs : ¬ s = [])
    (h0 : ¬ 3000 < (preTrunc s).length) :
    _clean_content s = pyStrip (preTrunc s) := by
  unfold _clean_content
  rw [if_neg hs]
  simp only [truncateAtSentence]
  rw [if_neg h0]

theorem dropWhile_getLast {p : Char → Bool} (l : PyStr) (c : Char)
    (hc : p c = false) :
    l.getLast? = some c → (l.dropWhile p).getLast? = some c := by
  induction l with
  | nil => intro h; simp at h
  | cons a t ih =>
    intro h
    cases t with
    | nil =>
      simp only [List.getLast?_singleton] at h
      cases h
      rw [List.dropWhile_cons_of_neg (by simp [hc])]
      rfl
    | cons b t2 =>
      rw [List.getLast?_cons_cons] at h
      by_cases hp : p a
      · rw [List.dropWhile_cons_of_pos hp]
        exact ih h
      · rw [List.dropWhile_cons_of_neg hp]
        rw [List.getLast?_cons_cons]
        exact h

theorem dropWhile_of_head {p : Char → Bool} (l : PyStr) (c : Char)
    (hc : p c = false) (h : l.head? = some c) : l.dropWhile p = l := by
  cases l with
  | nil => simp at h
  | cons a t =>
    have ha : a = c := by simpa using h
    subst ha
    exact List.dropWhile_cons_of_neg (by simp [hc])

theorem pyStrip_getLast (l : PyStr) (c : Char) (hws : pyIsSpace c = false)
    (h : l.getLast? = some c) : (pyStrip l).getLast? = some c := by
  unfold pyStrip
  have h1 : (l.dropWhile pyIsSpace).getLast? = some c := dropWhile_getLast l c hws h
  have h2 : ((l.dropWhile pyIsSpace).reverse).head? = some c := by
    rw [List.head?_reverse]; exact h1
  rw [dropWhile_of_head _ c hws h2, List.getLast?_reverse, List.head?_reverse]
  exact h1

theorem clean_big_cut_ends (s : PyStr) (h0 : 3000 < (preTrunc s).length)
    (h1 : 2500 < lastSentenceIdx ((preTrunc s).take 3000)) :
    ∃ t, (t = '.' ∨ t = '!' ∨ t = '?') ∧ (_clean_content s).getLast? = some t := by
  obtain ⟨t, ht, hget⟩ := lastSentenceIdx_term ((preTrunc s).take 3000) (by omega)
  refine ⟨t, ht, ?_⟩
  rw [clean_big_cut s h0 h1]
  have htake : ((preTrunc s).take 3000).take
      ((lastSentenceIdx ((preTrunc s).take 3000)).toNat + 1)
      = ((preTrunc s).take 3000).take
          ((lastSentenceIdx ((preTrunc s).take 3000)).toNat) ++ [t] := by
    rw [List.take_succ, hget]
    rfl
  rw [htake]
  have hws : pyIsSpace t = false := by rcases ht with rfl | rfl | rfl <;> rfl
  exact pyStrip_getLast _ t hws (List.getLast?_concat _)

/-- C3 (amended): the sanitizer output never exceeds 3000 plus the length
of the ellipsis marker; and whenever the cleaned text (after whitespace
collapsing and boilerplate removal — not the raw input) exceeds 3000
characters: if a sentence terminator occurs in the first 3000 characters at
an index strictly greater than 2500 (i.e. within the last 499 characters of
the cut, not 500), the output is the cut at the last such terminator
(inclusive) followed by the final whitespace strip, and it ends with a
sentence terminator; otherwise the output is the hard 3000-character cut
with the ellipsis marker appended, followed by the final whitespace
strip. -/
theorem sanitizer_truncation (s : PyStr) :
    (_clean_content s).length ≤ 3000 + ("...".toList).length
  ∧ (3000 < (preTrunc s).length →
      (2500 < lastSentenceIdx ((preTrunc s).take 3000) →
        _clean_content s = pyStrip (((preTrunc s).take 3000).take
            ((lastSentenceIdx ((preTrunc s).take 3000)).toNat + 1))
        ∧ ∃ t, (t = '.' ∨ t = '!' ∨ t = '?')
            ∧ (_clean_content s).getLast? = some t)
      ∧ (lastSentenceIdx ((preTrunc s).take 3000) ≤ 2500 →
        _clean_content s = pyStrip ((preTrunc s).take 3000 ++ "...".toList))) := by
  refine ⟨?_, fun h0 => ⟨fun h1 => ⟨clean_big_cut s h0 h1, clean_big_cut_ends s h0 h1⟩,
    fun h2 => clean_big_ellipsis s h0 h2⟩⟩
  by_cases hs : s = []
  · rw [hs]; simp [_clean_content]
  · by_cases h0 : 3000 < (preTrunc s).length
    · by_cases h1 : 2500 < lastSentenceIdx ((preTrunc s).take 3000)
      · rw [clean_big_cut s h0 h1]
        refine le_trans (pyStrip_length_le _) (le_trans (List.length_take_le _ _) ?_)
        have hlt := lastSentenceIdx_lt ((preTrunc s).take 3000)
        have hlen : ((preTrunc s).take 3000).length ≤ 3000 := List.length_take_le _ _
        omega
      · rw [clean_big_ellipsis s h0 (by omega)]
        refine le_trans (pyStrip_length_le _) ?_
        rw [List.length_append]
        have hlen : ((preTrunc s).take 3000).length ≤ 3000 := List.length_take_le _ _
        have he : ("...".toList).length = 3 := rfl
        omega
    · rw [clean_small s hs h0]
      have := pyStrip_length_le (preTrunc s)
      have he : ("...".toList).length = 3 := rfl
      omega

/-! ## Symbolic evaluation of the sanitizer on the large concrete inputs
(kernel evaluation over 3000-character lists is out of reach, so the
cleaning passes are evaluated by induction lemmas). -/

theorem collapseRuns_id (p : Char → Bool) (rep : Char) (b : Bool) (l : PyStr)
    (h : ∀ c ∈ l, p c = false) : collapseRuns p rep b l = l := by
  induction l generalizing b with
  | nil => rfl
  | cons c cs ih =>
    rw [collapseRuns, if_neg (by simp [h c (List.mem_cons_self c cs)])]
    rw [ih false (fun d hd => h d (List.mem_cons_of_mem _ hd))]

theorem subAllF_id_aux (h0 : Char) (t : PyStr) (p2 : Option PyStr) :
    ∀ (fuel : Nat) (l : PyStr), (∀ c ∈ l, ¬ h0.toLower = c.toLower) →
      subAllF (h0 :: t, p2) fuel l = l := by
  intro fuel
  induction fuel with
  | zero => intro l _; rfl
  | succ n ih =>
    intro l h
    cases l with
    | nil => rfl
    | cons c cs =>
      have hm : matchPat (h0 :: t, p2) (c :: cs) = none := by
        have hlit : matchLit (h0 :: t) (c :: cs) = none := by
          rw [matchLit, if_neg (h c (List.mem_cons_self c cs))]
        rw [matchPat, hlit]
      rw [subAllF, hm]
      rw [ih cs (fun d hd => h d (List.mem_cons_of_mem _ hd))]

theorem subPattern_id (pat : Pat) (h0 : Char) (hh : pat.1.head? = some h0)
    (l : PyStr) (h : ∀ c ∈ l, ¬ h0.toLower = c.toLower) :
    subPattern pat l = l := by
  obtain ⟨p1, p2⟩ := pat
  cases p1 with
  | nil => simp at hh
  | cons a t =>
    have ha : a = h0 := by simpa using hh
    subst ha
    exact subAllF_id_aux a t p2 l.length l h

theorem removePatterns_id (l : PyStr)
    (h : ∀ c ∈ l, ¬ c.toLower ∈ (['c', 's', 'f', 'a', 'r'] : List Char)) :
    removePatterns l = l := by
  have hgen : ∀ d : Char, d.toLower ∈ (['c', 's', 'f', 'a', 'r'] : List Char) →
      ∀ c ∈ l, ¬ d.toLower = c.toLower := by
    intro d hd c hc heq
    exact h c hc (heq ▸ hd)
  simp only [removePatterns, boilerplate_patterns, List.foldl_cons, List.foldl_nil]
  rw [subPattern_id ("Cookie Policy".toList, some "Accept".toList) 'C' (by decide)
        l (hgen 'C' (by decide)),
      subPattern_id ("Subscribe".toList, some "newsletter".toList) 'S' (by decide)
        l (hgen 'S' (by decide)),
      subPattern_id ("Follow us".toList, some "social".toList) 'F' (by decide)
        l (hgen 'F' (by decide)),
      subPattern_id ("Share this".toList, none) 'S' (by decide)
        l (hgen 'S' (by decide)),
      subPattern_id ("Advertisement".toList, none) 'A' (by decide)
        l (hgen 'A' (by decide)),
      subPattern_id ("Related:".toList, none) 'R' (by decide)
        l (hgen 'R' (by decide)),
      subPattern_id ("Also read:".toList, none) 'A' (by decide)
        l (hgen 'A' (by decide)),
      subPattern_id ("Sign up".toList, none) 'S' (by decide)
        l (hgen 'S' (by decide)),
      subPattern_id ("Read more:".toList, none) 'R' (by decide)
        l (hgen 'R' (by decide)),
      subPattern_id ("Continue reading".toList, none) 'C' (by decide)
        l (hgen 'C' (by decide))]

theorem mem_xydot (m k : Nat) :
    ∀ c ∈ (List.replicate m 'x' ++ '.' :: List.replicate k 'y'),
      c = 'x' ∨ c = '.' ∨ c = 'y' := by
  intro c hc
  rcases List.mem_append.1 hc with h | h
  · exact Or.inl (List.eq_of_mem_replicate h)
  · rcases List.mem_cons.1 h with rfl | h
    · exact Or.inr (Or.inl rfl)
    · exact Or.inr (Or.inr (List.eq_of_mem_replicate h))

theorem preTrunc_xydot (m k : Nat) :
    preTrunc (List.replicate m 'x' ++ '.' :: List.replicate k 'y')
      = List.replicate m 'x' ++ '.' :: List.replicate k 'y' := by
  have hmem := mem_xydot m k
  have h1 : sub_nl (List.replicate m 'x' ++ '.' :: List.replicate k 'y')
      = List.replicate m 'x' ++ '.' :: List.replicate k 'y' :=
    collapseRuns_id _ _ _ _ (fun c hc => by rcases hmem c hc with rfl | rfl | rfl <;> rfl)
  have h2 : sub_ws (List.replicate m 'x' ++ '.' :: List.replicate k 'y')
      = List.replicate m 'x' ++ '.' :: List.replicate k 'y' :=
    collapseRuns_id _ _ _ _ (fun c hc => by rcases hmem c hc with rfl | rfl | rfl <;> rfl)
  have h3 : removePatterns (List.replicate m 'x' ++ '.' :: List.replicate k 'y')
      = List.replicate m 'x' ++ '.' :: List.replicate k 'y' :=
    removePatterns_id _ (fun c hc => by rcases hmem c hc with rfl | rfl | rfl <;> decide)
  unfold preTrunc
  rw [h1, h2, h3]

theorem take_xydot (m j k : Nat) (h : j ≤ k) :
    (List.replicate m 'x' ++ '.' :: List.replicate k 'y').take (m + (j + 1))
      = List.replicate m 'x' ++ '.' :: List.replicate j 'y' := by
  rw [List.take_append_eq_append_take]
  rw [List.take_of_length_le (by simp only [List.length_replicate]; omega)]
  rw [List.length_replicate, Nat.add_sub_cancel_left]
  rw [List.take_succ_cons, List.take_replicate, Nat.min_eq_left h]

theorem pyRfindAux_replicate (c d : Char) (h : ¬ c = d) (n : Nat) :
    pyRfindAux c (List.replicate n d) = none := by
  induction n with
  | zero => rfl
  | succ n ih =>
    rw [List.replicate_succ, pyRfindAux, ih, if_neg (fun hh => h hh.symm)]

theorem pyRfindAux_xydot_dot (m k : Nat) :
    pyRfindAux '.' (List.replicate m 'x' ++ '.' :: List.replicate k 'y')
      = some m := by
  induction m with
  | zero =>
    show pyRfindAux '.' ('.' :: List.replicate k 'y') = some 0
    rw [pyRfindAux, pyRfindAux_replicate '.' 'y' (by decide) k]
    rfl
  | succ n ih =>
    rw [List.replicate_succ, List.cons_append, pyRfindAux, ih]

theorem pyRfindAux_xydot_none (c : Char) (hx : ¬ c = 'x') (hd : ¬ c = '.')
    (hy : ¬ c = 'y') (m k : Nat) :
    pyRfindAux c (List.replicate m 'x' ++ '.' :: List.replicate k 'y')
      = none := by
  induction m with
  | zero =>
    show pyRfindAux c ('.' :: List.replicate k 'y') = none
    rw [pyRfindAux, pyRfindAux_replicate c 'y' hy k,
      if_neg (fun h => hd h.symm)]
  | succ n ih =>
    rw [List.replicate_succ, List.cons_append, pyRfindAux, ih,
      if_neg (fun h => hx h.symm)]

theorem lastSentence_xydot (m k : Nat) :
    lastSentenceIdx (List.replicate m 'x' ++ '.' :: List.replicate k 'y')
      = (m : Int) := by
  unfold lastSentenceIdx pyRfind
  rw [pyRfindAux_xydot_dot m k,
    pyRfindAux_xydot_none '!' (by decide) (by decide) (by decide) m k,
    pyRfindAux_xydot_none '?' (by decide) (by decide) (by decide) m k]
  show max (m : Int) (max (-1) (-1)) = (m : Int)
  rw [max_self]
  exact max_eq_left (by omega)

theorem dropWhile_id_of {p : Char → Bool} (l : PyStr)
    (h : ∀ c ∈ l, p c = false) : l.dropWhile p = l := by
  cases l with
  | nil => rfl
  | cons a t =>
    exact List.dropWhile_cons_of_neg (by simp [h a (List.mem_cons_self a t)])

theorem pyStrip_id (l : PyStr) (h : ∀ c ∈ l, pyIsSpace c = false) :
    pyStrip l = l := by
  unfold pyStrip
  rw [dropWhile_id_of l h]
  rw [dropWhile_id_of _ (fun c hc => h c (List.mem_reverse.1 hc))]
  exact List.reverse_reverse l

theorem collapse_true_replicate (p : Char → Bool) (rep d : Char)
    (h : p d = true) :
    ∀ n, collapseRuns p rep true (List.replicate n d) = [] := by
  intro n
  induction n with
  | zero => rfl
  | succ n ih =>
    rw [List.replicate_succ, collapseRuns, if_pos h, if_pos rfl, ih]

theorem sub_ws_spaces (n : Nat) : sub_ws (List.replicate (n + 1) ' ') = [' '] := by
  rw [List.replicate_succ]
  show collapseRuns pyIsSpace ' ' false (' ' :: List.replicate n ' ') = [' ']
  rw [collapseRuns, if_pos (show pyIsSpace ' ' = true from rfl),
    if_neg (show ¬ (false = true) from by decide),
    collapse_true_replicate pyIsSpace ' ' ' ' rfl n]

theorem preTrunc_spaces : preTrunc exC3b = [' '] := by
  unfold preTrunc exC3b
  have h1 : sub_nl (List.replicate 3500 ' ') = List.replicate 3500 ' ' :=
    collapseRuns_id _ _ _ _
      (fun c hc => by rw [List.eq_of_mem_replicate hc]; rfl)
  rw [h1]
  rw [show (3500 : Nat) = 3499 + 1 from rfl, sub_ws_spaces]
  decide

theorem clean_exC3b : _clean_content exC3b = [] := by
  have hne : ¬ exC3b = [] := by
    intro h
    have := congrArg List.length h
    simp only [exC3b, List.length_replicate, List.length_nil] at this
    omega
  unfold _clean_content
  rw [if_neg hne, preTrunc_spaces]
  decide

theorem preTrunc_exW : preTrunc exW = exW := preTrunc_xydot 2600 400

theorem len_exW : (preTrunc exW).length = 3001 := by
  rw [preTrunc_exW]
  show (List.replicate 2600 'x' ++ '.' :: List.replicate 400 'y').length = 3001
  simp only [List.length_append, List.length_replicate, List.length_cons]

theorem take_exW : (preTrunc exW).take 3000
    = List.replicate 2600 'x' ++ '.' :: List.replicate 399 'y' := by
  rw [preTrunc_exW]
  show (List.replicate 2600 'x' ++ '.' :: List.replicate 400 'y').take 3000 = _
  rw [show (3000 : Nat) = 2600 + (399 + 1) from by norm_num]
  exact take_xydot 2600 399 400 (by norm_num)

theorem lastSentence_exW :
    lastSentenceIdx ((preTrunc exW).take 3000) = 2600 := by
  rw [take_exW]
  exact lastSentence_xydot 2600 399

/-- C3 witness: a 3001-character whitespace-free input whose only
terminator sits at index 2600 takes the cut branch and ends with the
terminator. -/
theorem sanitizer_truncation_witness :
    3000 < (preTrunc exW).length
  ∧ 2500 < lastSentenceIdx ((preTrunc exW).take 3000)
  ∧ _clean_content exW = pyStrip (((preTrunc exW).take 3000).take
      ((lastSentenceIdx ((preTrunc exW).take 3000)).toNat + 1))
  ∧ ∃ t, (t = '.' ∨ t = '!' ∨ t = '?') ∧ (_clean_content exW).getLast? = some t := by
  have h0 : 3000 < (preTrunc exW).length := by rw [len_exW]; omega
  have h1 : 2500 < lastSentenceIdx ((preTrunc exW).take 3000) := by
    rw [lastSentence_exW]; omega
  exact ⟨h0, h1, (((sanitizer_truncation exW).2 h0).1 h1).1,
    (((sanitizer_truncation exW).2 h0).1 h1).2⟩

theorem preTrunc_exC3a : preTrunc exC3a = exC3a := preTrunc_xydot 2500 500

theorem len_exC3a : (preTrunc exC3a).length = 3001 := by
  rw [preTrunc_exC3a]
  show (List.replicate 2500 'x' ++ '.' :: List.replicate 500 'y').length = 3001
  simp only [List.length_append, List.length_replicate, List.length_cons]

theorem take_exC3a : (preTrunc exC3a).take 3000
    = List.replicate 2500 'x' ++ '.' :: List.replicate 499 'y' := by
  rw [preTrunc_exC3a]
  show (List.replicate 2500 'x' ++ '.' :: List.replicate 500 'y').take 3000 = _
  rw [show (3000 : Nat) = 2500 + (499 + 1) from by norm_num]
  exact take_xydot 2500 499 500 (by norm_num)

theorem lastSentence_exC3a :
    lastSentenceIdx ((preTrunc exC3a).take 3000) = 2500 := by
  rw [take_exC3a]
  exact lastSentence_xydot 2500 499

theorem clean_exC3a :
    _clean_content exC3a = exC3a.take 3000 ++ "...".toList := by
  have h0 : 3000 < (preTrunc exC3a).length := by rw [len_exC3a]; omega
  have h2 : lastSentenceIdx ((preTrunc exC3a).take 3000) ≤ 2500 := by
    rw [lastSentence_exC3a]
  rw [clean_big_ellipsis exC3a h0 h2]
  have hid : pyStrip ((preTrunc exC3a).take 3000 ++ "...".toList)
      = (preTrunc exC3a).take 3000 ++ "...".toList := by
    refine pyStrip_id _ (fun c hc => ?_)
    rcases List.mem_append.1 hc with h | h
    · rw [take_exC3a] at h
      rcases mem_xydot 2500 499 c h with rfl | rfl | rfl <;> rfl
    · rcases List.mem_cons.1 h with rfl | h
      · rfl
      · rcases List.mem_cons.1 h with rfl | h
        · rfl
        · rcases List.mem_cons.1 h with rfl | h
          · rfl
          · simp at h
  rw [hid, preTrunc_exC3a]

/-- C3 counterexample, with respect to the claim as stated on the raw
input.  First input: 3001 characters whose only sentence terminator sits at
index 2500 — inside the last 500 characters of the 3000-character cut — yet
the output is not the cut at that terminator; it is the full cut with the
ellipsis appended (length 3003, not 2501), because the code requires the
terminator index to be strictly greater than 2500.  Second input: 3500
whitespace characters — an input longer than 3000 with no terminator — for
which the claimed output is the hard cut plus ellipsis, yet the sanitizer
returns the empty string, because the 3000-character check runs on the
collapsed text, not on the input. -/
theorem sanitizer_truncation_cex :
    3000 < exC3a.length
  ∧ exC3a[2500]? = some '.'
  ∧ _clean_content exC3a = exC3a.take 3000 ++ "...".toList
  ∧ (_clean_content exC3a).length = 3003
  ∧ ¬ _clean_content exC3a = exC3a.take 2501
  ∧ 3000 < exC3b.length
  ∧ _clean_content exC3b = []
  ∧ ¬ _clean_content exC3b = exC3b.take 3000 ++ "...".toList := by
  have hlenA : exC3a.length = 3001 := by
    show (List.replicate 2500 'x' ++ '.' :: List.replicate 500 'y').length = 3001
    simp only [List.length_append, List.length_replicate, List.length_cons]
  have htakeA : exC3a.take 3000
      = List.replicate 2500 'x' ++ '.' :: List.replicate 499 'y' := by
    have := take_exC3a
    rwa [preTrunc_exC3a] at this
  have hclean_len : (_clean_content exC3a).length = 3003 := by
    rw [clean_exC3a, List.length_append, htakeA]
    simp only [List.length_append, List.length_replicate, List.length_cons]
    rfl
  refine ⟨by omega, ?_, clean_exC3a, hclean_len, ?_, ?_, clean_exC3b, ?_⟩
  · show (List.replicate 2500 'x' ++ '.' :: List.replicate 500 'y')[2500]? = some '.'
    rw [List.getElem?_append_right (by simp only [List.length_replicate]; omega)]
    simp only [List.length_replicate, Nat.sub_self, List.getElem?_cons_zero]
  · intro h
    have hlen := congrArg List.length h
    rw [hclean_len, List.length_take, hlenA] at hlen
    omega
  · show 3000 < (List.replicate 3500 ' ').length
    simp only [List.length_replicate]
    omega
  · intro h
    have hlen := congrArg List.length h
    rw [clean_exC3b] at hlen
    simp only [List.length_nil, List.length_append, List.length_take] at hlen
    have : exC3b.length = 3500 := by
      show (List.replicate 3500 ' ').length = 3500
      simp only [List.length_replicate]
    rw [this] at hlen
    have he : ("...".toList).length = 3 := rfl
    rw [he] at hlen
    omega

end CustomWebTools
